import Mathlib

/-!
# TLS certificate probe (`tls.go`): embedding and verified properties

The module exports two operations to a scripting host, `isExpired` and
`chain`.  Each creates a promise, possibly starts a goroutine that dials
`target:443` over TLS, and settles the promise through its `resolve` /
`reject` callbacks.

The embedding is by explicit traces: every operation returns the list of
observable actions it performs on the calling stack and, when a goroutine is
started, the list of actions that goroutine performs.  The collaborators that
are not part of the repository (the TLS dial, the clock) are parameters.
-/

namespace httptls

/-! ## Library values -/

/-- Go `error` value, observed through its `Error()` text. -/
structure GoError where
  text : String
  deriving DecidableEq, Repr

/-- Go `errors.New(text)`. -/
def errors.New (text : String) : GoError := ⟨text⟩

/-- Go `fmt.Errorf(before ++ "%s" ++ after, a)` for one string operand and no
wrapping verb: the operand is inserted verbatim. -/
def fmt.Errorf (before : String) (a : String) (after : String) : GoError :=
  errors.New (before ++ a ++ after)

/-- Two-complement wrap of a mathematical integer into Go `int64`. -/
def wrapInt64 (x : Int) : Int := (x + 2 ^ 63) % 2 ^ 64 - 2 ^ 63

/-- Go `time.Time` without monotonic reading: `sec` seconds since the Unix
epoch (an `int64` in Go) and `nsec` nanoseconds inside that second. -/
structure Time where
  sec : Int
  nsec : Fin 1000000000
  deriving DecidableEq, Repr

/-- Go `func (t Time) After(u Time) bool`, the branch for wall-clock readings:
`ts > us || ts == us && t.nsec() > u.nsec()`. -/
def Time.After (t u : Time) : Bool :=
  decide (t.sec > u.sec) || (decide (t.sec = u.sec) && decide (t.nsec > u.nsec))

/-- Go `func (t Time) UnixMilli() int64`:
`t.unixSec()*1e3 + int64(t.nsec())/1e6`, in `int64` arithmetic. -/
def Time.UnixMilli (t : Time) : Int :=
  wrapInt64 (wrapInt64 (t.sec * 1000) + ((t.nsec : Nat) : Int) / 1000000)

/-- The instant denoted by a `Time`, as an unbounded count of nanoseconds since
the Unix epoch.  Used only in statements. -/
def Time.nanos (t : Time) : Int := t.sec * 1000000000 + ((t.nsec : Nat) : Int)

/-- Go `time.Second`, in nanoseconds. -/
def Second : Nat := 1000000000

/-- Go `pkix.Name`, observed through its `String()` rendering. -/
structure Name where
  dn : String
  deriving DecidableEq, Repr

/-- Go `func (n Name) String() string`. -/
def Name.String (n : Name) : String := n.dn

/-- The fields of `x509.Certificate` that the module reads. -/
structure Certificate where
  Subject : Name
  NotAfter : Time
  IsCA : Bool
  deriving DecidableEq, Repr

/-- Go `tls.ConnectionState`, restricted to the field the module reads. -/
structure ConnectionState where
  PeerCertificates : List Certificate
  deriving DecidableEq, Repr

/-- Go `*tls.Conn`, observed through `ConnectionState()`. -/
structure Conn where
  state : ConnectionState
  deriving DecidableEq, Repr

/-- Go `func (c *Conn) ConnectionState() ConnectionState`. -/
def Conn.ConnectionState (c : Conn) : ConnectionState := c.state

/-- Go `net.Dialer`, restricted to the field the module sets. -/
structure Dialer where
  Timeout : Nat
  deriving DecidableEq, Repr

/-- Go `tls.Config`, restricted to the field the module sets. -/
structure Config where
  InsecureSkipVerify : Bool
  deriving DecidableEq, Repr

/-- Outcome of `tls.DialWithDialer`: the Go pair `(conn, err)`. -/
inductive DialResult where
  | ok (conn : Conn)
  | error (err : GoError)
  deriving DecidableEq, Repr

/-- The network as seen by the module: `tls.DialWithDialer(dialer, network,
addr, config)`. -/
structure Network where
  DialWithDialer : Dialer → String → String → Config → DialResult

/-- A non-nil `sobek.Value`, observed through its `String()` conversion.
`sobek.Value` is a Go interface: a parameter of that type is modelled as
`Option Value`, with `none` for the nil interface (the script passed no
argument). -/
structure Value where
  str : String
  deriving DecidableEq, Repr

/-- Go `func (v Value) String() string`. -/
def Value.String (v : Value) : String := v.str

/-! ## Types of the module -/

/-- The `clock` interface: `Now() time.Time`. -/
structure clock where
  Now : Time
  deriving DecidableEq, Repr

/-- The `ModuleInstance` struct.  Its `vu` field carries no data of its own; the
uses of it (`promises.New(mi.vu)`, `mi.vu.Runtime()`) appear as actions. -/
structure ModuleInstance where
  clock : clock
  deriving DecidableEq, Repr

/-- The `JSCert` struct. -/
structure JSCert where
  Subject : String
  Expires : Int
  Isca : Bool
  deriving DecidableEq, Repr

/-- A `*sobek.Object` obtained as `rt.ToValue(jsc).ToObject(rt)`: the host object
wrapping the Go struct `jsc`. -/
structure Object where
  goValue : JSCert
  deriving DecidableEq, Repr

/-- The Go value handed to `resolve`. -/
inductive Result where
  | bool (b : Bool)
  | objects (l : List Object)
  deriving DecidableEq, Repr

/-- Observable actions of the module. -/
inductive Action where
  /-- Go `promises.New(mi.vu)`. -/
  | promisesNew
  /-- Go `reject(reason)`. -/
  | reject (reason : GoError)
  /-- Go `resolve(result)`. -/
  | resolve (result : Result)
  /-- Go `go func() ...`: a goroutine is started. -/
  | goFunc
  /-- Go `return p`. -/
  | returnP
  /-- Go `tls.DialWithDialer(d, network, addr, cfg)` together with what it returned. -/
  | dial (d : Dialer) (network : String) (addr : String) (cfg : Config) (res : DialResult)
  /-- Go `mi.clock.Now()` together with what it returned. -/
  | clockNow (t : Time)
  /-- Go `mi.vu.Runtime()`. -/
  | vuRuntime
  /-- Go `rt.ToValue(jsc)`. -/
  | toValue (jsc : JSCert)
  /-- Go `ToObject(rt)` on the value made from `jsc`. -/
  | toObject (jsc : JSCert)
  /-- Go run-time panic (here: a method call on a nil interface); the function
  stops at this point. -/
  | panic
  deriving DecidableEq, Repr

/-- What one call of an exported operation does: the actions on the calling
stack, and the actions of the goroutine body when one was started. -/
structure Call where
  sync : List Action
  goroutine : Option (List Action)
  deriving DecidableEq, Repr

/-! ## The module's functions -/

/-- The loop of `isCertExpired`:
`for _, c := range certs { if now.After(c.NotAfter) { return true, nil } }; return false, nil`. -/
def isCertExpired.loop (now : Time) : List Certificate → Bool
  | [] => false
  | c :: cs => if now.After c.NotAfter then true else isCertExpired.loop now cs

/-- Go `func (mi *ModuleInstance) isCertExpired(target string) (bool, error)`,
returning the Go pair and the actions performed. -/
def isCertExpired (mi : ModuleInstance) (net : Network) (target : String) :
    (Bool × Option GoError) × List Action :=
  let dialer : Dialer := ⟨10 * Second⟩
  let cfg : Config := ⟨true⟩
  let r := net.DialWithDialer dialer "tcp" (target ++ ":443") cfg
  let tr := [Action.dial dialer "tcp" (target ++ ":443") cfg r]
  match r with
  | .error err => ((false, some err), tr)
  | .ok conn =>
    let certs := conn.ConnectionState.PeerCertificates
    if certs.length < 1 then
      ((false, some (fmt.Errorf "chain of peer certificates for " target " is empty")), tr)
    else
      let now := mi.clock.Now
      ((isCertExpired.loop now certs, none), tr ++ [Action.clockNow now])

/-- The goroutine body of `IsExpired`. -/
def IsExpired.func1 (mi : ModuleInstance) (net : Network) (targetAddr : String) :
    List Action :=
  match isCertExpired mi net targetAddr with
  | ((_, some err), tr) => tr ++ [Action.reject err]
  | ((expired, none), tr) => tr ++ [Action.resolve (Result.bool expired)]

/-- Go `func (mi *ModuleInstance) IsExpired(target sobek.Value) *sobek.Promise`.
`promises.New(mi.vu)` runs first; `target.String()` on the next line panics when
`target` is the nil interface, and nothing after it runs. -/
def IsExpired (mi : ModuleInstance) (net : Network) (target : Option Value) : Call :=
  match target with
  | none => ⟨[Action.promisesNew, Action.panic], none⟩
  | some v =>
    let targetAddr := v.String
    if targetAddr = "" then
      ⟨[Action.promisesNew, Action.reject (errors.New "target is required"), Action.returnP],
        none⟩
    else
      ⟨[Action.promisesNew, Action.goFunc, Action.returnP],
        some (IsExpired.func1 mi net targetAddr)⟩

/-- The loop of `Chain`, with the slice `jscerts` and the actions so far as
accumulators:
`jsc := JSCert{...}; jscerts = append(jscerts, rt.ToValue(jsc).ToObject(rt))`. -/
def Chain.loop : List Certificate → List Object × List Action → List Object × List Action
  | [], acc => acc
  | c :: cs, (jscerts, tr) =>
    let jsc : JSCert := ⟨c.Subject.String, c.NotAfter.UnixMilli, c.IsCA⟩
    Chain.loop cs (jscerts ++ [Object.mk jsc], tr ++ [Action.toValue jsc, Action.toObject jsc])

/-- The goroutine body of `Chain`. -/
def Chain.func1 (_mi : ModuleInstance) (net : Network) (target : String) : List Action :=
  let dialer : Dialer := ⟨10 * Second⟩
  let cfg : Config := ⟨true⟩
  let r := net.DialWithDialer dialer "tcp" (target ++ ":443") cfg
  let tr := [Action.dial dialer "tcp" (target ++ ":443") cfg r]
  match r with
  | .error err => tr ++ [Action.reject err]
  | .ok conn =>
    let peerCerts := conn.ConnectionState.PeerCertificates
    if peerCerts.length < 1 then
      tr ++ [Action.reject (fmt.Errorf "chain of peer certificates for " target " is empty")]
    else
      let out := Chain.loop peerCerts ([], tr ++ [Action.vuRuntime])
      out.2 ++ [Action.resolve (Result.objects out.1)]

/-- Go `func (mi *ModuleInstance) Chain(target string) *sobek.Promise`. -/
def Chain (mi : ModuleInstance) (net : Network) (target : String) : Call :=
  ⟨[Action.promisesNew, Action.goFunc, Action.returnP], some (Chain.func1 mi net target)⟩

/-! ## Vocabulary of the statements -/

/-- The dial both operations issue for a target. -/
def probe (net : Network) (target : String) : DialResult :=
  net.DialWithDialer ⟨10 * Second⟩ "tcp" (target ++ ":443") ⟨true⟩

/-- The dial action both operations record for a target. -/
def probeAction (net : Network) (target : String) : Action :=
  Action.dial ⟨10 * Second⟩ "tcp" (target ++ ":443") ⟨true⟩ (probe net target)

/-- All actions of a call, calling stack first. -/
def Call.actions (c : Call) : List Action := c.sync ++ c.goroutine.getD []

/-- Settlement actions: `resolve` and `reject`. -/
def Action.isSettle : Action → Bool
  | .resolve _ => true
  | .reject _ => true
  | _ => false

/-- Actions on the host runtime other than promise settlement. -/
def Action.onRuntime : Action → Bool
  | .vuRuntime => true
  | .toValue _ => true
  | .toObject _ => true
  | _ => false

/-- Network actions. -/
def Action.isDial : Action → Bool
  | .dial _ _ _ _ _ => true
  | _ => false

/-- Clock reads. -/
def Action.isClock : Action → Bool
  | .clockNow _ => true
  | _ => false

/-- The settlement actions of a call, in order. -/
def Call.settlements (c : Call) : List Action := c.actions.filter Action.isSettle

/-- The projection of one certificate that `Chain` builds. -/
def toJSCert (c : Certificate) : JSCert := ⟨c.Subject.String, c.NotAfter.UnixMilli, c.IsCA⟩

/-- The actions the loop of `Chain` adds for a list of certificates. -/
def Chain.loopActions (certs : List Certificate) : List Action :=
  certs.flatMap (fun c => [Action.toValue (toJSCert c), Action.toObject (toJSCert c)])

/-- The error built by `fmt.Errorf("chain of peer certificates for %s is empty", target)`. -/
def emptyChainError (target : String) : GoError :=
  fmt.Errorf "chain of peer certificates for " target " is empty"

/-! ## Concrete clocks, networks and certificates -/

/-- A network on which every dial succeeds and the peer presents `certs`. -/
def netPresenting (certs : List Certificate) : Network :=
  ⟨fun _ _ _ _ => DialResult.ok ⟨⟨certs⟩⟩⟩

/-- A network on which every dial fails with `e`. -/
def netFailing (e : GoError) : Network :=
  ⟨fun _ _ _ _ => DialResult.error e⟩

/-- A module instance whose clock reads second `1000` after the epoch. -/
def miAt1000 : ModuleInstance := ⟨⟨⟨1000, 0⟩⟩⟩

/-- A leaf certificate that expired at second `500`. -/
def leafExpired : Certificate := ⟨⟨"CN=leaf"⟩, ⟨500, 0⟩, false⟩

/-- A leaf certificate that expires at second `1000` exactly. -/
def leafAtNow : Certificate := ⟨⟨"CN=leaf"⟩, ⟨1000, 0⟩, false⟩

/-- A CA certificate that expires at second `2000`. -/
def caValid : Certificate := ⟨⟨"CN=ca"⟩, ⟨2000, 0⟩, true⟩

/-! ## Lemmas about the library values -/

theorem wrapInt64_of_inRange (x : Int) (hlo : -(2 ^ 63) ≤ x) (hhi : x < 2 ^ 63) :
    wrapInt64 x = x := by
  unfold wrapInt64
  omega

theorem Time.After_iff_nanos_lt (t u : Time) : t.After u = true ↔ u.nanos < t.nanos := by
  have ht := t.nsec.isLt
  have hu := u.nsec.isLt
  simp only [Time.After, Time.nanos, Bool.or_eq_true, Bool.and_eq_true, decide_eq_true_eq,
    Fin.lt_def, gt_iff_lt]
  omega

theorem Time.After_self (t : Time) : t.After t = false := by
  simp [Time.After]

theorem Time.UnixMilli_of_inRange (t : Time) (hlo : -(2 ^ 63) ≤ t.nanos / 1000000)
    (hhi : t.nanos / 1000000 < 2 ^ 63) : t.UnixMilli = t.nanos / 1000000 := by
  have ht := t.nsec.isLt
  unfold Time.UnixMilli wrapInt64
  unfold Time.nanos at hlo hhi ⊢
  omega

/-! ## Lemmas about the loops -/

theorem isCertExpired.loop_eq_any (now : Time) (certs : List Certificate) :
    isCertExpired.loop now certs = certs.any (fun c => now.After c.NotAfter) := by
  induction certs with
  | nil => rfl
  | cons c cs ih =>
    simp only [isCertExpired.loop, List.any_cons, ih]
    cases now.After c.NotAfter <;> simp

theorem isCertExpired.loop_eq_true_iff (now : Time) (certs : List Certificate) :
    isCertExpired.loop now certs = true ↔ ∃ c ∈ certs, c.NotAfter.nanos < now.nanos := by
  rw [isCertExpired.loop_eq_any, List.any_eq_true]
  constructor
  · rintro ⟨c, hc, h⟩
    exact ⟨c, hc, (Time.After_iff_nanos_lt _ _).1 h⟩
  · rintro ⟨c, hc, h⟩
    exact ⟨c, hc, (Time.After_iff_nanos_lt _ _).2 h⟩

theorem Chain.loop_eq (certs : List Certificate) (jscerts : List Object) (tr : List Action) :
    Chain.loop certs (jscerts, tr) =
      (jscerts ++ certs.map (fun c => Object.mk (toJSCert c)), tr ++ Chain.loopActions certs) := by
  induction certs generalizing jscerts tr with
  | nil => simp [Chain.loop, Chain.loopActions]
  | cons c cs ih =>
    simp only [Chain.loop, ih, Chain.loopActions, toJSCert, List.map_cons, List.flatMap_cons,
      List.append_assoc, List.singleton_append, List.cons_append, List.nil_append]

theorem Chain.loopActions_filter_isSettle (certs : List Certificate) :
    (Chain.loopActions certs).filter Action.isSettle = [] := by
  induction certs with
  | nil => rfl
  | cons c cs ih =>
    simpa [Chain.loopActions, List.flatMap_cons, List.filter_cons, Action.isSettle] using ih

theorem Chain.loopActions_mem (certs : List Certificate) (a : Action)
    (h : a ∈ Chain.loopActions certs) : a.onRuntime = true := by
  simp only [Chain.loopActions, List.mem_flatMap, List.mem_cons, List.mem_singleton,
    List.not_mem_nil, or_false] at h
  obtain ⟨c, _, rfl | rfl⟩ := h <;> rfl

/-! ## The three outcomes of each goroutine body -/

theorem isCertExpired_of_error (mi : ModuleInstance) (net : Network) (target : String)
    (e : GoError) (hp : probe net target = DialResult.error e) :
    isCertExpired mi net target = ((false, some e), [probeAction net target]) := by
  unfold probe at hp
  simp only [isCertExpired, probeAction, probe, hp]

theorem isCertExpired_of_empty (mi : ModuleInstance) (net : Network) (target : String)
    (conn : Conn) (hp : probe net target = DialResult.ok conn)
    (h0 : conn.ConnectionState.PeerCertificates.length < 1) :
    isCertExpired mi net target =
      ((false, some (emptyChainError target)), [probeAction net target]) := by
  unfold probe at hp
  simp only [isCertExpired, probeAction, probe, hp, h0, if_true, emptyChainError]

theorem isCertExpired_of_chain (mi : ModuleInstance) (net : Network) (target : String)
    (conn : Conn) (hp : probe net target = DialResult.ok conn)
    (h1 : ¬ conn.ConnectionState.PeerCertificates.length < 1) :
    isCertExpired mi net target =
      ((isCertExpired.loop mi.clock.Now conn.ConnectionState.PeerCertificates, none),
        [probeAction net target, Action.clockNow mi.clock.Now]) := by
  unfold probe at hp
  simp only [isCertExpired, probeAction, probe, hp, h1, if_false, List.singleton_append]

theorem IsExpired_func1_of_error (mi : ModuleInstance) (net : Network) (target : String)
    (e : GoError) (hp : probe net target = DialResult.error e) :
    IsExpired.func1 mi net target = [probeAction net target, Action.reject e] := by
  simp only [IsExpired.func1, isCertExpired_of_error mi net target e hp, List.singleton_append]

theorem IsExpired_func1_of_empty (mi : ModuleInstance) (net : Network) (target : String)
    (conn : Conn) (hp : probe net target = DialResult.ok conn)
    (h0 : conn.ConnectionState.PeerCertificates.length < 1) :
    IsExpired.func1 mi net target =
      [probeAction net target, Action.reject (emptyChainError target)] := by
  simp only [IsExpired.func1, isCertExpired_of_empty mi net target conn hp h0,
    List.singleton_append]

theorem IsExpired_func1_of_chain (mi : ModuleInstance) (net : Network) (target : String)
    (conn : Conn) (hp : probe net target = DialResult.ok conn)
    (h1 : ¬ conn.ConnectionState.PeerCertificates.length < 1) :
    IsExpired.func1 mi net target =
      [probeAction net target, Action.clockNow mi.clock.Now,
        Action.resolve
          (Result.bool (isCertExpired.loop mi.clock.Now conn.ConnectionState.PeerCertificates))] := by
  simp only [IsExpired.func1, isCertExpired_of_chain mi net target conn hp h1,
    List.cons_append, List.nil_append]

theorem Chain_func1_of_error (mi : ModuleInstance) (net : Network) (target : String)
    (e : GoError) (hp : probe net target = DialResult.error e) :
    Chain.func1 mi net target = [probeAction net target, Action.reject e] := by
  unfold probe at hp
  simp only [Chain.func1, probeAction, probe, hp, List.singleton_append]

theorem Chain_func1_of_empty (mi : ModuleInstance) (net : Network) (target : String)
    (conn : Conn) (hp : probe net target = DialResult.ok conn)
    (h0 : conn.ConnectionState.PeerCertificates.length < 1) :
    Chain.func1 mi net target =
      [probeAction net target, Action.reject (emptyChainError target)] := by
  unfold probe at hp
  simp only [Chain.func1, probeAction, probe, hp, h0, if_true, emptyChainError,
    List.singleton_append]

theorem Chain_func1_of_chain (mi : ModuleInstance) (net : Network) (target : String)
    (conn : Conn) (hp : probe net target = DialResult.ok conn)
    (h1 : ¬ conn.ConnectionState.PeerCertificates.length < 1) :
    Chain.func1 mi net target =
      [probeAction net target, Action.vuRuntime]
        ++ Chain.loopActions conn.ConnectionState.PeerCertificates
        ++ [Action.resolve (Result.objects
            (conn.ConnectionState.PeerCertificates.map (fun c => Object.mk (toJSCert c))))] := by
  unfold probe at hp
  simp only [Chain.func1, probeAction, probe, hp, h1, if_false, Chain.loop_eq,
    List.singleton_append, List.nil_append, List.cons_append]

/-! ## The control paths of the two operations -/

theorem IsExpired_paths (mi : ModuleInstance) (net : Network) (target : Value) :
    (target.String = "" ∧
      IsExpired mi net (some target) =
        ⟨[Action.promisesNew, Action.reject (errors.New "target is required"), Action.returnP],
          none⟩) ∨
    (target.String ≠ "" ∧ ∃ e, probe net target.String = DialResult.error e ∧
      IsExpired mi net (some target) =
        ⟨[Action.promisesNew, Action.goFunc, Action.returnP],
          some [probeAction net target.String, Action.reject e]⟩) ∨
    (target.String ≠ "" ∧ ∃ conn, probe net target.String = DialResult.ok conn ∧
      conn.ConnectionState.PeerCertificates.length < 1 ∧
      IsExpired mi net (some target) =
        ⟨[Action.promisesNew, Action.goFunc, Action.returnP],
          some [probeAction net target.String,
            Action.reject (emptyChainError target.String)]⟩) ∨
    (target.String ≠ "" ∧ ∃ conn, probe net target.String = DialResult.ok conn ∧
      ¬ conn.ConnectionState.PeerCertificates.length < 1 ∧
      IsExpired mi net (some target) =
        ⟨[Action.promisesNew, Action.goFunc, Action.returnP],
          some [probeAction net target.String, Action.clockNow mi.clock.Now,
            Action.resolve (Result.bool
              (isCertExpired.loop mi.clock.Now conn.ConnectionState.PeerCertificates))]⟩) := by
  by_cases ht : target.String = ""
  · left
    exact ⟨ht, by simp only [IsExpired, ht, if_true]⟩
  · right
    cases hp : probe net target.String with
    | error e =>
      left
      exact ⟨ht, e, rfl, by
        simp only [IsExpired, ht, if_false, IsExpired_func1_of_error mi net target.String e hp]⟩
    | ok conn =>
      right
      by_cases h0 : conn.ConnectionState.PeerCertificates.length < 1
      · left
        exact ⟨ht, conn, rfl, h0, by
          simp only [IsExpired, ht, if_false,
            IsExpired_func1_of_empty mi net target.String conn hp h0]⟩
      · right
        exact ⟨ht, conn, rfl, h0, by
          simp only [IsExpired, ht, if_false,
            IsExpired_func1_of_chain mi net target.String conn hp h0]⟩

theorem Chain_paths (mi : ModuleInstance) (net : Network) (target : String) :
    (∃ e, probe net target = DialResult.error e ∧
      Chain mi net target =
        ⟨[Action.promisesNew, Action.goFunc, Action.returnP],
          some [probeAction net target, Action.reject e]⟩) ∨
    (∃ conn, probe net target = DialResult.ok conn ∧
      conn.ConnectionState.PeerCertificates.length < 1 ∧
      Chain mi net target =
        ⟨[Action.promisesNew, Action.goFunc, Action.returnP],
          some [probeAction net target, Action.reject (emptyChainError target)]⟩) ∨
    (∃ conn, probe net target = DialResult.ok conn ∧
      ¬ conn.ConnectionState.PeerCertificates.length < 1 ∧
      Chain mi net target =
        ⟨[Action.promisesNew, Action.goFunc, Action.returnP],
          some ([probeAction net target, Action.vuRuntime]
            ++ Chain.loopActions conn.ConnectionState.PeerCertificates
            ++ [Action.resolve (Result.objects
                (conn.ConnectionState.PeerCertificates.map
                  (fun c => Object.mk (toJSCert c))))])⟩) := by
  cases hp : probe net target with
  | error e =>
    left
    exact ⟨e, rfl, by simp only [Chain, Chain_func1_of_error mi net target e hp]⟩
  | ok conn =>
    right
    by_cases h0 : conn.ConnectionState.PeerCertificates.length < 1
    · left
      exact ⟨conn, rfl, h0, by simp only [Chain, Chain_func1_of_empty mi net target conn hp h0]⟩
    · right
      exact ⟨conn, rfl, h0, by simp only [Chain, Chain_func1_of_chain mi net target conn hp h0]⟩

theorem dial_eq_probeAction (net : Network) (target : String) (d : Dialer)
    (nw addr : String) (cfg : Config) (res : DialResult) :
    Action.dial d nw addr cfg res = probeAction net target →
      res = probe net target := by
  intro h
  simp only [probeAction, Action.dial.injEq] at h
  exact h.2.2.2.2

theorem dial_not_mem_loopActions (certs : List Certificate) (d : Dialer)
    (nw addr : String) (cfg : Config) (res : DialResult) :
    Action.dial d nw addr cfg res ∉ Chain.loopActions certs := by
  intro h
  have := Chain.loopActions_mem certs _ h
  simp [Action.onRuntime] at this

theorem reject_not_mem_loopActions (certs : List Certificate) (e : GoError) :
    Action.reject e ∉ Chain.loopActions certs := by
  intro h
  have := Chain.loopActions_mem certs _ h
  simp [Action.onRuntime] at this

theorem IsExpired_nil (mi : ModuleInstance) (net : Network) :
    IsExpired mi net none = ⟨[Action.promisesNew, Action.panic], none⟩ := rfl

theorem IsExpired_dial_mem (mi : ModuleInstance) (net : Network) (target : Option Value)
    (d : Dialer) (nw addr : String) (cfg : Config) (res : DialResult)
    (hmem : Action.dial d nw addr cfg res ∈ (IsExpired mi net target).actions) :
    ∃ v, target = some v ∧ v.String ≠ "" ∧ probe net v.String = res := by
  cases target with
  | none =>
    rw [IsExpired_nil] at hmem
    simp [Call.actions] at hmem
  | some v =>
    refine ⟨v, rfl, ?_⟩
    rcases IsExpired_paths mi net v with ⟨_, hc⟩ | ⟨ht, e, _, hc⟩ | ⟨ht, c, _, _, hc⟩ |
      ⟨ht, c, _, _, hc⟩
    · rw [hc] at hmem
      simp [Call.actions] at hmem
    all_goals
      rw [hc] at hmem
      simp only [Call.actions, Option.getD_some, List.cons_append, List.nil_append,
        List.mem_cons, List.not_mem_nil, or_false, reduceCtorEq, false_or] at hmem
      exact ⟨ht, (dial_eq_probeAction net v.String d nw addr cfg _ hmem).symm⟩

theorem IsExpired_goroutine_not_onRuntime (mi : ModuleInstance) (net : Network)
    (target : Option Value) :
    ∀ a ∈ ((IsExpired mi net target).goroutine).getD [], a.onRuntime = false := by
  intro a ha
  cases target with
  | none =>
    rw [IsExpired_nil] at ha
    simp at ha
  | some v =>
    rcases IsExpired_paths mi net v with ⟨_, hc⟩ | ⟨_, e, _, hc⟩ | ⟨_, c, _, _, hc⟩ |
      ⟨_, c, _, _, hc⟩
    · rw [hc] at ha
      simp at ha
    all_goals
      rw [hc] at ha
      simp only [Option.getD_some, List.mem_cons, List.not_mem_nil, or_false] at ha
      rcases ha with rfl | rfl | rfl <;> rfl

/-- For every non-nil target value `IsExpired`, and for every target string
`Chain`, performs exactly one settlement action, a `resolve` or a `reject`. -/
theorem settlements_singleton_of_value (mi : ModuleInstance) (net : Network)
    (targetValue : Value) (target : String) :
    (∃ a, (IsExpired mi net (some targetValue)).settlements = [a] ∧
      ((∃ v, a = Action.resolve v) ∨ (∃ e, a = Action.reject e))) ∧
    (∃ a, (Chain mi net target).settlements = [a] ∧
      ((∃ v, a = Action.resolve v) ∨ (∃ e, a = Action.reject e))) := by
  constructor
  · rcases IsExpired_paths mi net targetValue with ⟨_, hc⟩ | ⟨_, e, _, hc⟩ | ⟨_, c, _, _, hc⟩ |
      ⟨_, c, _, _, hc⟩
    · exact ⟨_, by rw [hc]; rfl, Or.inr ⟨_, rfl⟩⟩
    · exact ⟨Action.reject e, by
        rw [hc]; simp [Call.settlements, Call.actions, probeAction, Action.isSettle],
        Or.inr ⟨_, rfl⟩⟩
    · exact ⟨Action.reject (emptyChainError targetValue.String), by
        rw [hc]; simp [Call.settlements, Call.actions, probeAction, Action.isSettle],
        Or.inr ⟨_, rfl⟩⟩
    · exact ⟨Action.resolve (Result.bool
          (isCertExpired.loop mi.clock.Now c.ConnectionState.PeerCertificates)), by
        rw [hc]; simp [Call.settlements, Call.actions, probeAction, Action.isSettle],
        Or.inl ⟨_, rfl⟩⟩
  · rcases Chain_paths mi net target with ⟨e, _, hc⟩ | ⟨c, _, _, hc⟩ | ⟨c, _, _, hc⟩
    · exact ⟨Action.reject e, by
        rw [hc]; simp [Call.settlements, Call.actions, probeAction, Action.isSettle],
        Or.inr ⟨_, rfl⟩⟩
    · exact ⟨Action.reject (emptyChainError target), by
        rw [hc]; simp [Call.settlements, Call.actions, probeAction, Action.isSettle],
        Or.inr ⟨_, rfl⟩⟩
    · exact ⟨Action.resolve (Result.objects
          (c.ConnectionState.PeerCertificates.map (fun c => Object.mk (toJSCert c)))), by
        rw [hc]
        simp [Call.settlements, Call.actions, probeAction, Action.isSettle, List.filter_append,
          Chain.loopActions_filter_isSettle, List.filter_cons],
        Or.inl ⟨_, rfl⟩⟩

/-! ## Expiry check -/

/-- C1: for a non-empty target, a successful probe with a non-empty chain and
any clock reading `now`, `IsExpired` starts one goroutine that dials, reads the
clock and resolves with a boolean `b`; `b` is true exactly when some certificate
of the chain has `NotAfter` strictly before `now`.  A certificate with
`NotAfter = now` is not counted, a chain whose certificates all expire at or
after `now` gives false, and one whose certificates all expire before `now`
gives true. -/
theorem isExpired_true_iff_some_certificate_expired (mi : ModuleInstance) (net : Network)
    (target : Value) (conn : Conn)
    (ht : target.String ≠ "")
    (hp : probe net target.String = DialResult.ok conn)
    (hne : conn.ConnectionState.PeerCertificates ≠ []) :
    ∃ b : Bool,
      IsExpired mi net (some target) =
        ⟨[Action.promisesNew, Action.goFunc, Action.returnP],
          some [probeAction net target.String, Action.clockNow mi.clock.Now,
            Action.resolve (Result.bool b)]⟩ ∧
      (IsExpired mi net (some target)).settlements = [Action.resolve (Result.bool b)] ∧
      (b = true ↔
        ∃ c ∈ conn.ConnectionState.PeerCertificates, mi.clock.Now.After c.NotAfter = true) ∧
      (b = true ↔
        ∃ c ∈ conn.ConnectionState.PeerCertificates, c.NotAfter.nanos < mi.clock.Now.nanos) ∧
      (∀ c ∈ conn.ConnectionState.PeerCertificates,
        c.NotAfter = mi.clock.Now → mi.clock.Now.After c.NotAfter = false) ∧
      ((∀ c ∈ conn.ConnectionState.PeerCertificates,
        mi.clock.Now.nanos ≤ c.NotAfter.nanos) → b = false) ∧
      ((∀ c ∈ conn.ConnectionState.PeerCertificates,
        c.NotAfter.nanos < mi.clock.Now.nanos) → b = true) := by
  have h1 : ¬ conn.ConnectionState.PeerCertificates.length < 1 := by
    cases hc : conn.ConnectionState.PeerCertificates with
    | nil => exact absurd hc hne
    | cons c cs => simp
  have hcall : IsExpired mi net (some target) =
      ⟨[Action.promisesNew, Action.goFunc, Action.returnP],
        some [probeAction net target.String, Action.clockNow mi.clock.Now,
          Action.resolve (Result.bool
            (isCertExpired.loop mi.clock.Now conn.ConnectionState.PeerCertificates))]⟩ := by
    simp only [IsExpired, ht, if_false, IsExpired_func1_of_chain mi net target.String conn hp h1]
  refine ⟨isCertExpired.loop mi.clock.Now conn.ConnectionState.PeerCertificates, hcall, ?_, ?_,
    isCertExpired.loop_eq_true_iff _ _, ?_, ?_, ?_⟩
  · rw [hcall]
    simp [Call.settlements, Call.actions, probeAction, Action.isSettle]
  · rw [isCertExpired.loop_eq_any, List.any_eq_true]
  · intro c _ hc
    rw [hc]
    exact Time.After_self _
  · intro hall
    cases hb : isCertExpired.loop mi.clock.Now conn.ConnectionState.PeerCertificates with
    | false => rfl
    | true =>
      obtain ⟨c, hc, hlt⟩ := (isCertExpired.loop_eq_true_iff _ _).1 hb
      have := hall c hc
      omega
  · intro hall
    cases hc : conn.ConnectionState.PeerCertificates with
    | nil => exact absurd hc hne
    | cons c cs =>
      rw [hc] at hall
      exact (isCertExpired.loop_eq_true_iff _ _).2 ⟨c, List.mem_cons_self _ _,
        hall c (List.mem_cons_self _ _)⟩

/-- C1 at an instance: the clock reads second 1000 and the peer presents one
certificate that expires at second 1000 exactly, so the call resolves false. -/
theorem isExpired_true_iff_some_certificate_expired_witness :
    (Value.String ⟨"example.com"⟩ ≠ "" ∧
      probe (netPresenting [leafAtNow]) (Value.String ⟨"example.com"⟩)
        = DialResult.ok ⟨⟨[leafAtNow]⟩⟩ ∧
      (Conn.mk ⟨[leafAtNow]⟩).ConnectionState.PeerCertificates ≠ []) ∧
    (IsExpired miAt1000 (netPresenting [leafAtNow]) (some ⟨"example.com"⟩)).settlements
      = [Action.resolve (Result.bool false)] := by
  have ht : Value.String ⟨"example.com"⟩ ≠ "" := by decide
  have hp : probe (netPresenting [leafAtNow]) (Value.String ⟨"example.com"⟩)
      = DialResult.ok ⟨⟨[leafAtNow]⟩⟩ := rfl
  have hne : (Conn.mk ⟨[leafAtNow]⟩).ConnectionState.PeerCertificates ≠ [] := by
    simp [Conn.ConnectionState]
  obtain ⟨b, _, hs, _, _, _, hfalse, _⟩ :=
    isExpired_true_iff_some_certificate_expired miAt1000 (netPresenting [leafAtNow])
      ⟨"example.com"⟩ ⟨⟨[leafAtNow]⟩⟩ ht hp hne
  refine ⟨⟨ht, hp, hne⟩, ?_⟩
  have hb : b = false := by
    apply hfalse
    intro c hc
    simp only [Conn.ConnectionState, List.mem_singleton] at hc
    subst hc
    decide
  rw [hs, hb]

/-- C2 fails as stated: the clock reads second 1000, the peer presents a leaf
that expired at second 500 followed by a CA certificate valid until second
2000; one certificate expires at or after the clock reading, and the call
resolves true, not false. -/
theorem isExpired_one_valid_certificate_counterexample :
    probe (netPresenting [leafExpired, caValid]) "example.com"
      = DialResult.ok ⟨⟨[leafExpired, caValid]⟩⟩ ∧
    (∃ c ∈ [leafExpired, caValid], miAt1000.clock.Now.nanos ≤ c.NotAfter.nanos) ∧
    (IsExpired miAt1000 (netPresenting [leafExpired, caValid]) (some ⟨"example.com"⟩)).settlements
      = [Action.resolve (Result.bool true)] ∧
    (IsExpired miAt1000 (netPresenting [leafExpired, caValid]) (some ⟨"example.com"⟩)).settlements
      ≠ [Action.resolve (Result.bool false)] := by
  refine ⟨rfl, ⟨caValid, by simp, by decide⟩, by decide, by decide⟩

/-- C2 as amended: when the dial of a call of `IsExpired` succeeds and the peer
presents at least one certificate, and every certificate of the chain expires
at or after the clock reading, the call resolves false. -/
theorem isExpired_false_of_all_valid (mi : ModuleInstance) (net : Network)
    (target : Option Value) (d : Dialer) (nw addr : String) (cfg : Config) (conn : Conn)
    (hdial : Action.dial d nw addr cfg (DialResult.ok conn) ∈ (IsExpired mi net target).actions)
    (hne : conn.ConnectionState.PeerCertificates ≠ [])
    (hall : ∀ c ∈ conn.ConnectionState.PeerCertificates,
      mi.clock.Now.nanos ≤ c.NotAfter.nanos) :
    (IsExpired mi net target).settlements = [Action.resolve (Result.bool false)] := by
  obtain ⟨v, rfl, ht, hp⟩ := IsExpired_dial_mem mi net target d nw addr cfg _ hdial
  have h1 : ¬ conn.ConnectionState.PeerCertificates.length < 1 := by
    cases hc : conn.ConnectionState.PeerCertificates with
    | nil => exact absurd hc hne
    | cons c cs => simp
  have hb : isCertExpired.loop mi.clock.Now conn.ConnectionState.PeerCertificates = false := by
    cases hb : isCertExpired.loop mi.clock.Now conn.ConnectionState.PeerCertificates with
    | false => rfl
    | true =>
      obtain ⟨c, hc, hlt⟩ := (isCertExpired.loop_eq_true_iff _ _).1 hb
      have := hall c hc
      omega
  simp [IsExpired, ht, IsExpired_func1_of_chain mi net v.String conn hp h1, hb,
    Call.settlements, Call.actions, probeAction, Action.isSettle]

/-- C2 as amended, at an instance: the peer presents a leaf expiring at the clock
reading and a CA certificate expiring later. -/
theorem isExpired_false_of_all_valid_witness :
    Action.dial ⟨10 * Second⟩ "tcp" "example.com:443" ⟨true⟩
        (DialResult.ok ⟨⟨[leafAtNow, caValid]⟩⟩)
      ∈ (IsExpired miAt1000 (netPresenting [leafAtNow, caValid]) (some ⟨"example.com"⟩)).actions ∧
    (IsExpired miAt1000 (netPresenting [leafAtNow, caValid]) (some ⟨"example.com"⟩)).settlements
      = [Action.resolve (Result.bool false)] :=
  ⟨by decide,
    isExpired_false_of_all_valid miAt1000 (netPresenting [leafAtNow, caValid])
      (some ⟨"example.com"⟩) ⟨10 * Second⟩ "tcp" "example.com:443" ⟨true⟩ ⟨⟨[leafAtNow, caValid]⟩⟩
      (by decide) (by simp [Conn.ConnectionState])
      (by
        intro c hc
        simp only [Conn.ConnectionState, List.mem_cons, List.mem_singleton, List.not_mem_nil,
          or_false] at hc
        rcases hc with rfl | rfl <;> decide)⟩

/-! ## Chain projection -/

/-- C3: for a successful probe that returns `N >= 1` certificates, `Chain`
resolves with exactly `N` records, and record `i` carries the subject string,
the `UnixMilli` of `NotAfter` and the CA flag of certificate `i`: the result is
the order-preserving map of the presented chain.  Whenever the millisecond count
of `NotAfter` fits in `int64`, `Expires` is that count (nanoseconds since the
epoch divided by `10^6`, rounded down).  Two calls that see the same chain
settle identically. -/
theorem chain_resolves_projection_of_peer_chain (mi : ModuleInstance) (net : Network)
    (target : String) (conn : Conn)
    (hp : probe net target = DialResult.ok conn)
    (hN : 1 ≤ conn.ConnectionState.PeerCertificates.length) :
    ∃ records : List Object,
      (Chain mi net target).settlements = [Action.resolve (Result.objects records)] ∧
      records.length = conn.ConnectionState.PeerCertificates.length ∧
      records.map Object.goValue = conn.ConnectionState.PeerCertificates.map
        (fun c => JSCert.mk c.Subject.String c.NotAfter.UnixMilli c.IsCA) ∧
      (∀ (i : Nat) (hi : i < conn.ConnectionState.PeerCertificates.length),
        ∃ r : Object, records[i]? = some r ∧
          r.goValue.Subject = (conn.ConnectionState.PeerCertificates.get ⟨i, hi⟩).Subject.String ∧
          r.goValue.Expires = (conn.ConnectionState.PeerCertificates.get ⟨i, hi⟩).NotAfter.UnixMilli ∧
          r.goValue.Isca = (conn.ConnectionState.PeerCertificates.get ⟨i, hi⟩).IsCA ∧
          (-(2 ^ 63) ≤ (conn.ConnectionState.PeerCertificates.get ⟨i, hi⟩).NotAfter.nanos / 1000000 →
            (conn.ConnectionState.PeerCertificates.get ⟨i, hi⟩).NotAfter.nanos / 1000000 < 2 ^ 63 →
            r.goValue.Expires =
              (conn.ConnectionState.PeerCertificates.get ⟨i, hi⟩).NotAfter.nanos / 1000000)) ∧
      (∀ (mi2 : ModuleInstance) (net2 : Network) (target2 : String) (conn2 : Conn),
        probe net2 target2 = DialResult.ok conn2 →
        conn2.ConnectionState.PeerCertificates = conn.ConnectionState.PeerCertificates →
        (Chain mi2 net2 target2).settlements = (Chain mi net target).settlements) := by
  have h1 : ¬ conn.ConnectionState.PeerCertificates.length < 1 := by omega
  have hset : ∀ (mi2 : ModuleInstance) (net2 : Network) (target2 : String) (conn2 : Conn),
      probe net2 target2 = DialResult.ok conn2 →
      ¬ conn2.ConnectionState.PeerCertificates.length < 1 →
      (Chain mi2 net2 target2).settlements =
        [Action.resolve (Result.objects
          (conn2.ConnectionState.PeerCertificates.map (fun c => Object.mk (toJSCert c))))] := by
    intro mi2 net2 target2 conn2 hp2 h2
    simp [Chain, Chain_func1_of_chain mi2 net2 target2 conn2 hp2 h2, Call.settlements,
      Call.actions, probeAction, Action.isSettle, List.filter_append,
      Chain.loopActions_filter_isSettle, List.filter_cons]
  refine ⟨conn.ConnectionState.PeerCertificates.map (fun c => Object.mk (toJSCert c)),
    hset mi net target conn hp h1, by simp, ?_, ?_, ?_⟩
  · simp [List.map_map, Function.comp_def, toJSCert]
  · intro i hi
    refine ⟨Object.mk (toJSCert (conn.ConnectionState.PeerCertificates.get ⟨i, hi⟩)), ?_,
      rfl, rfl, rfl, ?_⟩
    · simp [List.getElem?_map, List.getElem?_eq_getElem hi]
    · intro hlo hhi
      exact Time.UnixMilli_of_inRange _ hlo hhi
  · intro mi2 net2 target2 conn2 hp2 hsame
    rw [hset mi2 net2 target2 conn2 hp2 (by rw [hsame]; exact h1), hset mi net target conn hp h1,
      hsame]

/-- C3 at an instance: a two-certificate chain gives two records in the same
order, with expiry 500000 and 2000000 milliseconds. -/
theorem chain_resolves_projection_of_peer_chain_witness :
    (probe (netPresenting [leafExpired, caValid]) "example.com"
        = DialResult.ok ⟨⟨[leafExpired, caValid]⟩⟩ ∧
      1 ≤ (Conn.mk ⟨[leafExpired, caValid]⟩).ConnectionState.PeerCertificates.length) ∧
    (Chain miAt1000 (netPresenting [leafExpired, caValid]) "example.com").settlements
      = [Action.resolve (Result.objects
          [⟨⟨"CN=leaf", 500000, false⟩⟩, ⟨⟨"CN=ca", 2000000, true⟩⟩])] := by
  have hp : probe (netPresenting [leafExpired, caValid]) "example.com"
      = DialResult.ok ⟨⟨[leafExpired, caValid]⟩⟩ := rfl
  have hN : 1 ≤ (Conn.mk ⟨[leafExpired, caValid]⟩).ConnectionState.PeerCertificates.length := by
    simp [Conn.ConnectionState]
  obtain ⟨records, hs, _, hmap, _, _⟩ :=
    chain_resolves_projection_of_peer_chain miAt1000 (netPresenting [leafExpired, caValid])
      "example.com" ⟨⟨[leafExpired, caValid]⟩⟩ hp hN
  refine ⟨⟨hp, hN⟩, ?_⟩
  have hr : records = (records.map Object.goValue).map Object.mk := by
    rw [List.map_map]
    exact (List.map_id records).symm
  rw [hs, hr, hmap]
  decide

/-! ## Empty target -/

/-- C4: when the target stringifies to the empty string, `IsExpired` rejects on
the calling stack with the error "target is required" and returns the promise;
no goroutine is started, no dial is issued and the clock is not read, and the
call is the same for every clock and every network. -/
theorem isExpired_empty_target_rejects_synchronously (mi : ModuleInstance) (net : Network)
    (target : Value) (ht : target.String = "") :
    IsExpired mi net (some target) =
      ⟨[Action.promisesNew, Action.reject (errors.New "target is required"), Action.returnP],
        none⟩ ∧
    (errors.New "target is required").text = "target is required" ∧
    (IsExpired mi net (some target)).goroutine = none ∧
    (IsExpired mi net (some target)).settlements = [Action.reject (errors.New "target is required")] ∧
    (∀ a ∈ (IsExpired mi net (some target)).actions, a.isDial = false ∧ a.isClock = false) ∧
    (∀ (mi2 : ModuleInstance) (net2 : Network),
      IsExpired mi2 net2 (some target) = IsExpired mi net (some target)) := by
  have hcall : ∀ (mi2 : ModuleInstance) (net2 : Network), IsExpired mi2 net2 (some target) =
      ⟨[Action.promisesNew, Action.reject (errors.New "target is required"), Action.returnP],
        none⟩ := by
    intro mi2 net2
    simp only [IsExpired, ht, if_true]
  refine ⟨hcall mi net, rfl, ?_, ?_, ?_, ?_⟩
  · rw [hcall]
  · rw [hcall]
    rfl
  · rw [hcall]
    intro a ha
    simp only [Call.actions, Option.getD_none, List.append_nil, List.mem_cons,
      List.mem_singleton, List.not_mem_nil, or_false] at ha
    rcases ha with rfl | rfl | rfl <;> exact ⟨rfl, rfl⟩
  · intro mi2 net2
    rw [hcall, hcall]

/-- C4 at an instance: the empty target on a network where every dial would
succeed. -/
theorem isExpired_empty_target_rejects_synchronously_witness :
    Value.String ⟨""⟩ = "" ∧
    (IsExpired miAt1000 (netPresenting [caValid]) (some ⟨""⟩)).settlements
      = [Action.reject (errors.New "target is required")] :=
  ⟨rfl, (isExpired_empty_target_rejects_synchronously miAt1000 (netPresenting [caValid])
    ⟨""⟩ rfl).2.2.2.1⟩

/-! ## Probe failure -/

/-- C5: for a non-empty target, when the dial fails with error `e`, `IsExpired`
and `Chain` each start one goroutine whose only actions are the dial and
`reject(e)` with `e` unchanged: nothing is resolved, the clock is not read and
no certificate is projected. -/
theorem probe_failure_rejects_with_dial_error (mi : ModuleInstance) (net : Network)
    (target : Value) (e : GoError)
    (ht : target.String ≠ "")
    (hp : probe net target.String = DialResult.error e) :
    (IsExpired mi net (some target) =
        ⟨[Action.promisesNew, Action.goFunc, Action.returnP],
          some [probeAction net target.String, Action.reject e]⟩ ∧
      Chain mi net target.String =
        ⟨[Action.promisesNew, Action.goFunc, Action.returnP],
          some [probeAction net target.String, Action.reject e]⟩) ∧
    ((IsExpired mi net (some target)).settlements = [Action.reject e] ∧
      (Chain mi net target.String).settlements = [Action.reject e]) ∧
    (∀ a, a ∈ (IsExpired mi net (some target)).actions ∨ a ∈ (Chain mi net target.String).actions →
      (∀ v, a ≠ Action.resolve v) ∧ a.isClock = false ∧ a.onRuntime = false) := by
  have h1 : IsExpired mi net (some target) =
      ⟨[Action.promisesNew, Action.goFunc, Action.returnP],
        some [probeAction net target.String, Action.reject e]⟩ := by
    simp only [IsExpired, ht, if_false, IsExpired_func1_of_error mi net target.String e hp]
  have h2 : Chain mi net target.String =
      ⟨[Action.promisesNew, Action.goFunc, Action.returnP],
        some [probeAction net target.String, Action.reject e]⟩ := by
    simp only [Chain, Chain_func1_of_error mi net target.String e hp]
  refine ⟨⟨h1, h2⟩, ⟨?_, ?_⟩, ?_⟩
  · rw [h1]
    simp [Call.settlements, Call.actions, probeAction, Action.isSettle]
  · rw [h2]
    simp [Call.settlements, Call.actions, probeAction, Action.isSettle]
  · intro a ha
    rw [h1, h2] at ha
    simp only [Call.actions, Option.getD_some, List.cons_append, List.nil_append, List.mem_cons,
      List.mem_singleton, List.not_mem_nil, or_false, or_self] at ha
    rcases ha with rfl | rfl | rfl | rfl | rfl <;>
      exact ⟨fun v h => by simp [probeAction] at h, rfl, rfl⟩

/-- C5 at an instance: every dial fails with the error "EOF". -/
theorem probe_failure_rejects_with_dial_error_witness :
    (Value.String ⟨"example.com"⟩ ≠ "" ∧
      probe (netFailing (errors.New "EOF")) (Value.String ⟨"example.com"⟩)
        = DialResult.error (errors.New "EOF")) ∧
    (IsExpired miAt1000 (netFailing (errors.New "EOF")) (some ⟨"example.com"⟩)).settlements
      = [Action.reject (errors.New "EOF")] ∧
    (Chain miAt1000 (netFailing (errors.New "EOF")) "example.com").settlements
      = [Action.reject (errors.New "EOF")] :=
  ⟨⟨by decide, rfl⟩,
    (probe_failure_rejects_with_dial_error miAt1000 (netFailing (errors.New "EOF"))
      ⟨"example.com"⟩ (errors.New "EOF") (by decide) rfl).2.1⟩

/-! ## Empty peer chain -/

/-- C6: for every target, when the dial of a call succeeds and the peer presents
zero certificates, `IsExpired` and `Chain` reject with the error whose text is
"chain of peer certificates for <target> is empty".  The goroutine consists of
the dial and that rejection only, so nothing is resolved (neither false nor an
empty list), and the decision is taken on the length of the chain before the
clock is read or a certificate is projected.  The target of `IsExpired` ranges
over every argument, the nil interface included. -/
theorem empty_peer_chain_rejects (mi : ModuleInstance) (net : Network) (conn : Conn)
    (d : Dialer) (nw addr : String) (cfg : Config)
    (h0 : conn.ConnectionState.PeerCertificates.length = 0) :
    (∀ target : Option Value,
      Action.dial d nw addr cfg (DialResult.ok conn) ∈ (IsExpired mi net target).actions →
        ∃ v, target = some v ∧
          (IsExpired mi net target).goroutine =
            some [probeAction net v.String, Action.reject (emptyChainError v.String)] ∧
          (IsExpired mi net target).settlements = [Action.reject (emptyChainError v.String)] ∧
          (IsExpired mi net target).settlements ≠ [Action.resolve (Result.bool false)]) ∧
    (∀ target : String,
      Action.dial d nw addr cfg (DialResult.ok conn) ∈ (Chain mi net target).actions →
        (Chain mi net target).goroutine =
          some [probeAction net target, Action.reject (emptyChainError target)] ∧
        (Chain mi net target).settlements = [Action.reject (emptyChainError target)] ∧
        (Chain mi net target).settlements ≠ [Action.resolve (Result.objects [])]) ∧
    (∀ target : String,
      (emptyChainError target).text = "chain of peer certificates for " ++ target ++ " is empty") := by
  refine ⟨?_, ?_, fun _ => rfl⟩
  · intro target hmem
    obtain ⟨v, rfl, ht, hp⟩ := IsExpired_dial_mem mi net target d nw addr cfg _ hmem
    have hlen : conn.ConnectionState.PeerCertificates.length < 1 := by omega
    have hc : IsExpired mi net (some v) =
        ⟨[Action.promisesNew, Action.goFunc, Action.returnP],
          some [probeAction net v.String, Action.reject (emptyChainError v.String)]⟩ := by
      simp only [IsExpired, ht, if_false, IsExpired_func1_of_empty mi net v.String conn hp hlen]
    refine ⟨v, rfl, ?_⟩
    rw [hc]
    simp [Call.settlements, Call.actions, probeAction, Action.isSettle]
  · intro target hmem
    rcases Chain_paths mi net target with ⟨e, hp, hc⟩ | ⟨c, hp, hlen, hc⟩ | ⟨c, hp, hlen, hc⟩
    · rw [hc] at hmem
      simp only [Call.actions, Option.getD_some, List.cons_append, List.nil_append,
        List.mem_cons, List.not_mem_nil, or_false, reduceCtorEq, false_or] at hmem
      have := dial_eq_probeAction net target d nw addr cfg _ hmem
      rw [hp] at this
      simp at this
    · rw [hc]
      simp [Call.settlements, Call.actions, probeAction, Action.isSettle]
    · rw [hc] at hmem
      simp only [Call.actions, Option.getD_some, List.cons_append, List.nil_append,
        List.mem_cons, List.mem_append, List.not_mem_nil, or_false, reduceCtorEq, false_or,
        dial_not_mem_loopActions] at hmem
      have := dial_eq_probeAction net target d nw addr cfg _ hmem
      rw [hp] at this
      simp only [DialResult.ok.injEq] at this
      subst this
      omega

/-- C6 at an instance: every dial succeeds with an empty peer chain. -/
theorem empty_peer_chain_rejects_witness :
    (Conn.mk ⟨[]⟩).ConnectionState.PeerCertificates.length = 0 ∧
    Action.dial ⟨10 * Second⟩ "tcp" "example.com:443" ⟨true⟩ (DialResult.ok ⟨⟨[]⟩⟩)
      ∈ (IsExpired miAt1000 (netPresenting []) (some ⟨"example.com"⟩)).actions ∧
    Action.dial ⟨10 * Second⟩ "tcp" "example.com:443" ⟨true⟩ (DialResult.ok ⟨⟨[]⟩⟩)
      ∈ (Chain miAt1000 (netPresenting []) "example.com").actions ∧
    (IsExpired miAt1000 (netPresenting []) (some ⟨"example.com"⟩)).settlements
      = [Action.reject (errors.New "chain of peer certificates for example.com is empty")] ∧
    (Chain miAt1000 (netPresenting []) "example.com").settlements
      = [Action.reject (errors.New "chain of peer certificates for example.com is empty")] := by
  have h0 : (Conn.mk ⟨[]⟩).ConnectionState.PeerCertificates.length = 0 := rfl
  have h1 : Action.dial ⟨10 * Second⟩ "tcp" "example.com:443" ⟨true⟩ (DialResult.ok ⟨⟨[]⟩⟩)
      ∈ (IsExpired miAt1000 (netPresenting []) (some ⟨"example.com"⟩)).actions := by decide
  have h2 : Action.dial ⟨10 * Second⟩ "tcp" "example.com:443" ⟨true⟩ (DialResult.ok ⟨⟨[]⟩⟩)
      ∈ (Chain miAt1000 (netPresenting []) "example.com").actions := by decide
  have h := empty_peer_chain_rejects miAt1000 (netPresenting []) ⟨⟨[]⟩⟩ ⟨10 * Second⟩ "tcp"
    "example.com:443" ⟨true⟩ h0
  refine ⟨h0, h1, h2, ?_, ?_⟩
  · obtain ⟨v, hv, _, hs, _⟩ := h.1 (some ⟨"example.com"⟩) h1
    rw [hs, ← Option.some.inj hv]
    decide
  · rw [(h.2.1 "example.com" h2).2.1]
    decide

/-! ## Settlement -/

/-- C7, the code at a failing input: when the script passes no argument, the
target of `IsExpired` is the nil interface; the call creates the promise and
then panics in `target.String()`, so it performs no settlement action, starts
no goroutine and does not return the promise. -/
theorem isExpired_nil_target_settles_nothing :
    IsExpired miAt1000 (netPresenting [caValid]) none
      = ⟨[Action.promisesNew, Action.panic], none⟩ ∧
    (IsExpired miAt1000 (netPresenting [caValid]) none).settlements = [] ∧
    (IsExpired miAt1000 (netPresenting [caValid]) none).settlements.length ≠ 1 ∧
    Action.returnP ∉ (IsExpired miAt1000 (netPresenting [caValid]) none).actions := by
  refine ⟨rfl, rfl, by decide, by decide⟩

/-! ## What the rejection carries on a failed dial -/

/-- C8 fails as stated: on a network where every dial fails with the error "EOF",
`IsExpired` and `Chain` reject with that same error for the targets
"a.example" and "b.example", so no reading of the rejection recovers the
target: the error does not carry it. -/
theorem rejection_carries_target_counterexample :
    probe (netFailing (errors.New "EOF")) "a.example" = DialResult.error (errors.New "EOF") ∧
    probe (netFailing (errors.New "EOF")) "b.example" = DialResult.error (errors.New "EOF") ∧
    (IsExpired miAt1000 (netFailing (errors.New "EOF")) (some ⟨"a.example"⟩)).settlements
      = [Action.reject (errors.New "EOF")] ∧
    (IsExpired miAt1000 (netFailing (errors.New "EOF")) (some ⟨"b.example"⟩)).settlements
      = [Action.reject (errors.New "EOF")] ∧
    (Chain miAt1000 (netFailing (errors.New "EOF")) "a.example").settlements
      = [Action.reject (errors.New "EOF")] ∧
    (Chain miAt1000 (netFailing (errors.New "EOF")) "b.example").settlements
      = [Action.reject (errors.New "EOF")] ∧
    (¬ ∃ targetOf : GoError → String, ∀ target ∈ ["a.example", "b.example"], ∀ r,
      Action.reject r ∈ (IsExpired miAt1000 (netFailing (errors.New "EOF")) (some ⟨target⟩)).settlements →
        targetOf r = target) ∧
    (¬ ∃ targetOf : GoError → String, ∀ target ∈ ["a.example", "b.example"], ∀ r,
      Action.reject r ∈ (Chain miAt1000 (netFailing (errors.New "EOF")) target).settlements →
        targetOf r = target) := by
  have hIa : (IsExpired miAt1000 (netFailing (errors.New "EOF")) (some ⟨"a.example"⟩)).settlements
      = [Action.reject (errors.New "EOF")] := by decide
  have hIb : (IsExpired miAt1000 (netFailing (errors.New "EOF")) (some ⟨"b.example"⟩)).settlements
      = [Action.reject (errors.New "EOF")] := by decide
  have hCa : (Chain miAt1000 (netFailing (errors.New "EOF")) "a.example").settlements
      = [Action.reject (errors.New "EOF")] := by decide
  have hCb : (Chain miAt1000 (netFailing (errors.New "EOF")) "b.example").settlements
      = [Action.reject (errors.New "EOF")] := by decide
  refine ⟨rfl, rfl, hIa, hIb, hCa, hCb, ?_, ?_⟩
  · rintro ⟨f, hf⟩
    have ha := hf "a.example" (by simp) (errors.New "EOF") (by rw [hIa]; simp)
    have hb := hf "b.example" (by simp) (errors.New "EOF") (by rw [hIb]; simp)
    rw [ha] at hb
    exact absurd hb (by decide)
  · rintro ⟨f, hf⟩
    have ha := hf "a.example" (by simp) (errors.New "EOF") (by rw [hCa]; simp)
    have hb := hf "b.example" (by simp) (errors.New "EOF") (by rw [hCb]; simp)
    rw [ha] at hb
    exact absurd hb (by decide)

/-- C8 as amended: when the dial fails with error `e`, `Chain` (for every
target) and `IsExpired` (for every non-empty target) reject with `e` itself, the
error the dial returned, and with nothing else; the module attaches no target to
it, so two targets whose dial fails with the same error are rejected with the
same error. -/
theorem rejection_is_dial_error (mi : ModuleInstance) (net : Network) (e : GoError) :
    (∀ target : String, probe net target = DialResult.error e →
      (Chain mi net target).settlements = [Action.reject e]) ∧
    (∀ target : Value, target.String ≠ "" → probe net target.String = DialResult.error e →
      (IsExpired mi net (some target)).settlements = [Action.reject e]) ∧
    (∀ t1 t2 : String, probe net t1 = DialResult.error e → probe net t2 = DialResult.error e →
      (Chain mi net t1).settlements = (Chain mi net t2).settlements) ∧
    (∀ t1 t2 : Value, t1.String ≠ "" → t2.String ≠ "" →
      probe net t1.String = DialResult.error e → probe net t2.String = DialResult.error e →
      (IsExpired mi net (some t1)).settlements = (IsExpired mi net (some t2)).settlements) := by
  have hC : ∀ target : String, probe net target = DialResult.error e →
      (Chain mi net target).settlements = [Action.reject e] := by
    intro target hp
    simp [Chain, Chain_func1_of_error mi net target e hp, Call.settlements, Call.actions,
      probeAction, Action.isSettle]
  have hI : ∀ target : Value, target.String ≠ "" →
      probe net target.String = DialResult.error e →
      (IsExpired mi net (some target)).settlements = [Action.reject e] := by
    intro target ht hp
    simp [IsExpired, ht, IsExpired_func1_of_error mi net target.String e hp, Call.settlements,
      Call.actions, probeAction, Action.isSettle]
  refine ⟨hC, hI, ?_, ?_⟩
  · intro t1 t2 h1 h2
    rw [hC t1 h1, hC t2 h2]
  · intro t1 t2 n1 n2 h1 h2
    rw [hI t1 n1 h1, hI t2 n2 h2]

/-- C8 as amended, at an instance: every dial fails with the error "EOF". -/
theorem rejection_is_dial_error_witness :
    probe (netFailing (errors.New "EOF")) "a.example" = DialResult.error (errors.New "EOF") ∧
    Value.String ⟨"a.example"⟩ ≠ "" ∧
    (Chain miAt1000 (netFailing (errors.New "EOF")) "a.example").settlements
      = [Action.reject (errors.New "EOF")] ∧
    (IsExpired miAt1000 (netFailing (errors.New "EOF")) (some ⟨"a.example"⟩)).settlements
      = [Action.reject (errors.New "EOF")] :=
  ⟨rfl, by decide,
    (rejection_is_dial_error miAt1000 (netFailing (errors.New "EOF")) (errors.New "EOF")).1
      "a.example" rfl,
    (rejection_is_dial_error miAt1000 (netFailing (errors.New "EOF")) (errors.New "EOF")).2.1
      ⟨"a.example"⟩ (by decide) rfl⟩

/-! ## The goroutine and the host runtime -/

/-- C9, the code at a failing input: with a successful probe presenting one
certificate, the goroutine of `Chain` obtains the host runtime and converts a
value and creates an object on it before it resolves. -/
theorem chain_goroutine_uses_runtime :
    (Chain miAt1000 (netPresenting [caValid]) "example.com").goroutine =
      some [probeAction (netPresenting [caValid]) "example.com",
        Action.vuRuntime,
        Action.toValue ⟨"CN=ca", 2000000, true⟩,
        Action.toObject ⟨"CN=ca", 2000000, true⟩,
        Action.resolve (Result.objects [⟨⟨"CN=ca", 2000000, true⟩⟩])] ∧
    (∃ a ∈ ((Chain miAt1000 (netPresenting [caValid]) "example.com").goroutine).getD [],
      a.onRuntime = true ∧ a.isSettle = false) := by
  refine ⟨by decide, Action.vuRuntime, by decide, rfl, rfl⟩

/-! ## No validation in `Chain` -/

/-- C10: for every target string, the empty one included, `Chain` settles
nothing on the calling stack and starts a goroutine whose first action is the
dial of `target ++ ":443"`, the only dial of the call; a rejection of its
promise is either the error of a failed dial or the empty-chain error after a
successful dial with no certificate.  `IsExpired` on the empty target rejects
on the calling stack and starts no goroutine. -/
theorem chain_no_synchronous_validation (mi : ModuleInstance) (net : Network)
    (target : String) :
    (Chain mi net target).sync = [Action.promisesNew, Action.goFunc, Action.returnP] ∧
    (∀ a ∈ (Chain mi net target).sync, a.isSettle = false) ∧
    (∃ rest, (Chain mi net target).goroutine =
      some (Action.dial ⟨10 * Second⟩ "tcp" (target ++ ":443") ⟨true⟩ (probe net target)
        :: rest) ∧ ∀ a ∈ rest, a.isDial = false) ∧
    (∃ rest, (Chain mi net "").goroutine =
      some (Action.dial ⟨10 * Second⟩ "tcp" ":443" ⟨true⟩ (probe net "") :: rest)) ∧
    (∀ e, Action.reject e ∈ (Chain mi net target).actions →
      probe net target = DialResult.error e ∨
      ∃ conn, probe net target = DialResult.ok conn ∧
        conn.ConnectionState.PeerCertificates.length < 1 ∧ e = emptyChainError target) ∧
    ((IsExpired mi net (some ⟨""⟩)).sync =
        [Action.promisesNew, Action.reject (errors.New "target is required"), Action.returnP] ∧
      (IsExpired mi net (some ⟨""⟩)).goroutine = none) := by
  have hfirst : ∀ t : String, ∃ rest, (Chain mi net t).goroutine =
      some (Action.dial ⟨10 * Second⟩ "tcp" (t ++ ":443") ⟨true⟩ (probe net t) :: rest) ∧
        ∀ a ∈ rest, a.isDial = false := by
    intro t
    rcases Chain_paths mi net t with ⟨e, _, hc⟩ | ⟨c, _, _, hc⟩ | ⟨c, _, _, hc⟩
    · exact ⟨_, by rw [hc]; rfl, by simp [Action.isDial]⟩
    · exact ⟨_, by rw [hc]; rfl, by simp [Action.isDial]⟩
    · refine ⟨Action.vuRuntime :: (Chain.loopActions c.ConnectionState.PeerCertificates
          ++ [Action.resolve (Result.objects
            (c.ConnectionState.PeerCertificates.map (fun c => Object.mk (toJSCert c))))]),
        by rw [hc]; rfl, ?_⟩
      intro a ha
      simp only [List.mem_cons, List.mem_append, List.not_mem_nil, or_false] at ha
      rcases ha with rfl | h | rfl
      · rfl
      · have := Chain.loopActions_mem _ a h
        cases a <;> simp_all [Action.onRuntime, Action.isDial]
      · rfl
  refine ⟨rfl, ?_, hfirst target, ?_, ?_, rfl, rfl⟩
  · intro a ha
    simp only [Chain, List.mem_cons, List.not_mem_nil, or_false] at ha
    rcases ha with rfl | rfl | rfl <;> rfl
  · obtain ⟨rest, h, _⟩ := hfirst ""
    exact ⟨rest, h⟩
  · intro e hmem
    rcases Chain_paths mi net target with ⟨e2, hp, hc⟩ | ⟨c, hp, hlen, hc⟩ | ⟨c, hp, hlen, hc⟩
    · rw [hc] at hmem
      simp only [Call.actions, Option.getD_some, List.cons_append, List.nil_append,
        List.mem_cons, List.not_mem_nil, or_false, reduceCtorEq, false_or, probeAction,
        Action.reject.injEq] at hmem
      left
      rw [hp, hmem]
    · rw [hc] at hmem
      simp only [Call.actions, Option.getD_some, List.cons_append, List.nil_append,
        List.mem_cons, List.not_mem_nil, or_false, reduceCtorEq, false_or, probeAction,
        Action.reject.injEq] at hmem
      right
      exact ⟨c, hp, hlen, hmem⟩
    · rw [hc] at hmem
      simp only [Call.actions, Option.getD_some, List.cons_append, List.nil_append,
        List.mem_cons, List.mem_append, List.not_mem_nil, or_false, reduceCtorEq, false_or,
        probeAction, reject_not_mem_loopActions] at hmem

end httptls
